import Mathlib

/-!
Verification of the LINFO2146 wireless-sensor-network control plane.

The definitions below are a shallow embedding of the C sources
(`src/computation-node.c`, `src/sensor-node.c` and the unnamed snapshots):
machine bytes (`uint8_t`) and words (`uint16_t`, `uint32_t`) are `Nat`
with explicit `% 2^w` where the C arithmetic can wrap, C `float`
arithmetic is embedded over `ℚ` (every concrete input considered here
keeps the float computation exact), and the radio output
(`NETSTACK_NETWORK.output`) is recorded as a list of `Wireless`
transmissions instead of performing I/O.
-/

namespace WSN

/-- `uint32_t` subtraction `a - b` as C computes it (wrap-around modulo `2^32`),
for `a b < 2^32`.  Used for `now - valve_open_time` in `valve_timer_process`. -/
def u32sub (a b : Nat) : Nat := (a + 2 ^ 32 - b) % 2 ^ 32

theorem u32sub_of_le (a b : Nat) (hb : b ≤ a) (ha : a < 2 ^ 32) :
    u32sub a b = a - b := by
  unfold u32sub
  omega

/-! ## Topology state and the discovery handler

From `src/computation-node.c` (globals at lines 41–43 and
`receive_callback` case 1, lines 225–248); the sensor node
(`src/sensor-node.c` lines 163–192) runs the identical rule with its
energest-derived energy metric in place of `energy_level`. -/

/-- The per-node topology state: `parent_id` (`uint16_t`, `0xFFFF` = none),
`hop_to_root` (`uint8_t`, `0xFF` = unknown) and the local energy metric
(`uint16_t`). -/
structure TopoState where
  parent_id : Nat
  hop_to_root : Nat
  energy_level : Nat
  deriving Repr, DecidableEq

/-- The discovery branch of `receive_callback`: adopt the advertised node as
parent iff `hop_count < hop_to_root` or (`hop_count == hop_to_root` and
`energy > energy_level >> 8`); on adoption set `parent_id = source_id` and
`hop_to_root = hop_count + 1` (`uint8_t` arithmetic, hence `% 256`). -/
def onDiscovery (s : TopoState) (source_id hop_count energy : Nat) : TopoState :=
  if hop_count < s.hop_to_root ∨ (hop_count = s.hop_to_root ∧ s.energy_level / 256 < energy) then
    { s with parent_id := source_id, hop_to_root := (hop_count + 1) % 256 }
  else
    s

/-- The discovery handler including the guard at the top of
`receive_callback`: a frame whose link-layer source is the node itself is
ignored before the payload is inspected. -/
def receiveDiscovery (selfId srcAddr : Nat) (s : TopoState)
    (source_id hop_count energy : Nat) : TopoState :=
  if srcAddr = selfId then s else onDiscovery s source_id hop_count energy

end WSN

namespace WSN

/-- C1: a non-root node receiving a Discovery frame from a sender other than
itself adopts the sender as parent iff `sender_hop < hop_to_root` or
(`sender_hop == hop_to_root` and the advertised energy byte exceeds the local
energy byte); on adoption `parent_id = sender_id` and
`hop_to_root = sender_hop + 1` (as a `uint8_t`); otherwise `parent_id` and
`hop_to_root` are unchanged. -/
theorem C1_parent_adoption_rule (selfId srcAddr : Nat) (s : TopoState)
    (source_id hop_count energy : Nat) (hsrc : srcAddr ≠ selfId) :
    ((hop_count < s.hop_to_root ∨
        (hop_count = s.hop_to_root ∧ s.energy_level / 256 < energy)) →
      (receiveDiscovery selfId srcAddr s source_id hop_count energy).parent_id = source_id ∧
      (receiveDiscovery selfId srcAddr s source_id hop_count energy).hop_to_root =
        (hop_count + 1) % 256) ∧
    (¬(hop_count < s.hop_to_root ∨
        (hop_count = s.hop_to_root ∧ s.energy_level / 256 < energy)) →
      (receiveDiscovery selfId srcAddr s source_id hop_count energy).parent_id = s.parent_id ∧
      (receiveDiscovery selfId srcAddr s source_id hop_count energy).hop_to_root =
        s.hop_to_root) := by
  unfold receiveDiscovery onDiscovery
  rw [if_neg hsrc]
  constructor
  · intro hc
    rw [if_pos hc]
    exact ⟨rfl, rfl⟩
  · intro hc
    rw [if_neg hc]
    exact ⟨rfl, rfl⟩

/-- Witness for C1: a node with no parent (`hop_to_root = 0xFF`) hearing the
root (`hop = 0`, energy byte 100) adopts it and ends at hop 1. -/
theorem C1_parent_adoption_rule_witness :
    (receiveDiscovery 5 1 ⟨0xFFFF, 0xFF, 1000⟩ 1 0 100).parent_id = 1 ∧
    (receiveDiscovery 5 1 ⟨0xFFFF, 0xFF, 1000⟩ 1 0 100).hop_to_root = 1 := by
  have h := (C1_parent_adoption_rule 5 1 ⟨0xFFFF, 0xFF, 1000⟩ 1 0 100
    (by decide)).1 (Or.inl (by norm_num))
  exact ⟨h.1, h.2⟩

/-- C3 counterexample: hop 2 with energy byte 3 (`energy_level = 768`) hearing
a Discovery with equal hop 2 and larger energy byte 5 adopts and moves to
hop 3 — `hop_to_root` increases across this adoption, refuting the claim
that it only decreases or stays equal. -/
theorem C3_counterexample :
    (receiveDiscovery 9 7 ⟨1, 2, 768⟩ 7 2 5).hop_to_root = 3 ∧
    ¬((receiveDiscovery 9 7 ⟨1, 2, 768⟩ 7 2 5).hop_to_root ≤
        (TopoState.mk 1 2 768).hop_to_root) := by
  constructor
  · decide
  · decide

/-- C3 amended: across a single adoption the sender's advertised hop is at
most the current `hop_to_root`, so the new `hop_to_root` is at most the old
value plus one; it does not increase at all when the adoption is by the
strict-improvement branch (`sender_hop < hop_to_root`).  The equal-hop
energy tie-break is the one case that raises it, by exactly one. -/
theorem C3_hop_almost_monotone (selfId srcAddr : Nat) (s : TopoState)
    (source_id hop_count energy : Nat) (hsrc : srcAddr ≠ selfId)
    (hadopt : hop_count < s.hop_to_root ∨
      (hop_count = s.hop_to_root ∧ s.energy_level / 256 < energy)) :
    (receiveDiscovery selfId srcAddr s source_id hop_count energy).hop_to_root ≤
      s.hop_to_root + 1 ∧
    (hop_count < s.hop_to_root →
      (receiveDiscovery selfId srcAddr s source_id hop_count energy).hop_to_root ≤
        s.hop_to_root) := by
  unfold receiveDiscovery onDiscovery
  rw [if_neg hsrc, if_pos hadopt]
  have hle : hop_count ≤ s.hop_to_root := by
    rcases hadopt with h | ⟨h, _⟩
    · exact Nat.le_of_lt h
    · exact Nat.le_of_eq h
  constructor
  · simp only
    have : (hop_count + 1) % 256 ≤ hop_count + 1 := Nat.mod_le _ _
    omega
  · intro hlt
    simp only
    have : (hop_count + 1) % 256 ≤ hop_count + 1 := Nat.mod_le _ _
    omega

/-- Witness for C3 amended: hop 255 node hearing hop 0 adopts and lands at
hop 1 ≤ 255. -/
theorem C3_hop_almost_monotone_witness :
    (receiveDiscovery 5 1 ⟨0xFFFF, 0xFF, 1000⟩ 1 0 100).hop_to_root ≤ 0xFF + 1 ∧
    (receiveDiscovery 5 1 ⟨0xFFFF, 0xFF, 1000⟩ 1 0 100).hop_to_root ≤ 0xFF := by
  have h := C3_hop_almost_monotone 5 1 ⟨0xFFFF, 0xFF, 1000⟩ 1 0 100
    (by decide) (Or.inl (by norm_num))
  exact ⟨h.1, h.2 (by norm_num)⟩

end WSN

namespace WSN

/-! ## Route table, next-hop resolution and command transmission

From `src/computation-node.c`: `route_entry_t` (lines 24–29),
`update_route` (lines 112–139), `find_next_hop` (lines 190–206),
`send_command` (lines 167–188) and `forward_message` (lines 156–165). -/

/-- One routing-table slot (`route_entry_t`). -/
structure RouteEntry where
  dest_id : Nat
  next_hop : Nat
  hop_count : Nat
  last_updated : Nat
  deriving Repr, DecidableEq

/-- Capacity of the routing table (`MAX_ROUTES`). -/
def MAX_ROUTES : Nat := 10

/-- The linear scan of `update_route`, first loop: the first entry for
`dest_id` is found. -/
def findRoute (routes : List RouteEntry) (target_id : Nat) : Option RouteEntry :=
  routes.find? (fun e => e.dest_id == target_id)

/-- The in-place replacement of the first loop of `update_route`: the first
entry for `dest` is overwritten iff the offered `hop_count` is strictly
smaller, with `last_updated` refreshed; the scan stops at the first match. -/
def replaceRoute (dest next_hop hop_count now : Nat) :
    List RouteEntry → List RouteEntry
  | [] => []
  | e :: rest =>
    if e.dest_id = dest then
      (if hop_count < e.hop_count then RouteEntry.mk dest next_hop hop_count now else e) :: rest
    else
      e :: replaceRoute dest next_hop hop_count now rest

/-- `update_route(dest_id, next_hop, hop_count)`: update the first existing
entry for `dest_id` when the new hop count strictly improves, otherwise
append a fresh entry iff the table holds fewer than `MAX_ROUTES` entries. -/
def update_route (routes : List RouteEntry) (dest_id next_hop hop_count now : Nat) :
    List RouteEntry :=
  if routes.any (fun e => e.dest_id == dest_id) then
    replaceRoute dest_id next_hop hop_count now routes
  else if routes.length < MAX_ROUTES then
    routes ++ [RouteEntry.mk dest_id next_hop hop_count now]
  else
    routes

/-- `find_next_hop(target_id)`: the routing-table next hop when an entry for
the target exists; else the parent when one is set (`parent_id != 0xFFFF`,
truncated to the `uint8_t` return type); else the target itself ("last
resort: try direct communication").  Note that no value of this function
means broadcast: the caller broadcasts only when the result is `0xFF`. -/
def find_next_hop (routes : List RouteEntry) (parent_id target_id : Nat) : Nat :=
  match findRoute routes target_id with
  | some e => e.next_hop
  | none => if parent_id ≠ 0xFFFF then parent_id % 256 else target_id

/-- A recorded radio transmission (`NETSTACK_NETWORK.output` with a unicast
link address or `NULL` for broadcast). -/
inductive Wireless where
  | unicast (dest : Nat) (payload : List Nat)
  | broadcast (payload : List Nat)
  deriving Repr, DecidableEq

/-- The 4-byte command frame built by `send_command`:
`{type = 4, target, command, 0}`. -/
def mkCmdMsg (sensor_id command : Nat) : List Nat := [4, sensor_id, command, 0]

/-- `send_command(sensor_id, command)`: unicast the command frame to
`find_next_hop(sensor_id)`, then additionally broadcast the same frame
("to reach sensors that might not have established routes"). -/
def send_command (routes : List RouteEntry) (parent_id sensor_id command : Nat) :
    List Wireless :=
  [Wireless.unicast (find_next_hop routes parent_id sensor_id) (mkCmdMsg sensor_id command),
   Wireless.broadcast (mkCmdMsg sensor_id command)]

/-- `forward_message(data, len, dest)`: unicast the buffer unchanged to
`dest` (a `uint8_t` parameter, so a wider argument is truncated). -/
def forward_message (msg : List Nat) (dest : Nat) : Wireless :=
  Wireless.unicast (dest % 256) msg

/-- The command branch of `receive_callback` (case 4, lines 286–308) for a
target other than the node itself: resolve the next hop, forward the frame
to it unless the resolution is `0xFF`, in which case broadcast it. -/
def forwardCommand (routes : List RouteEntry) (parent_id : Nat) (msg : List Nat)
    (target_id : Nat) : Wireless :=
  let next_hop := find_next_hop routes parent_id target_id
  if next_hop ≠ 0xFF then forward_message msg next_hop else Wireless.broadcast msg

/-- `NextHop` as the spec describes the result of `resolve_next_hop`. -/
inductive NextHop where
  | unicast (id : Nat)
  | broadcast
  deriving Repr, DecidableEq

/-- Modelled from the spec (section 4.3) for comparison with the code's
`find_next_hop`: "returns, in priority order, (a) `target` itself if it is a
direct child, (b) the route-table next hop if a route exists, (c) the
current parent if one exists, (d) `Broadcast` as last resort". -/
def resolve_next_hop_spec (children : List Nat) (routes : List RouteEntry)
    (parent : Option Nat) (target : Nat) : NextHop :=
  if target ∈ children then NextHop.unicast target
  else
    match findRoute routes target with
    | some e => NextHop.unicast e.next_hop
    | none =>
      match parent with
      | some p => NextHop.unicast p
      | none => NextHop.broadcast

/-- A sequence of `update_route` calls applied to the initially empty table
(each call is `(dest_id, next_hop, hop_count, now)`). -/
def apply_updates (calls : List (Nat × Nat × Nat × Nat)) : List RouteEntry :=
  calls.foldl (fun t c => update_route t c.1 c.2.1 c.2.2.1 c.2.2.2) []

theorem replaceRoute_length (dest next_hop hop_count now : Nat) :
    ∀ routes : List RouteEntry,
      (replaceRoute dest next_hop hop_count now routes).length = routes.length := by
  intro routes
  induction routes with
  | nil => rfl
  | cons e rest ih =>
    unfold replaceRoute
    by_cases h : e.dest_id = dest
    · simp [h]
    · simp [h, ih]

theorem update_route_length_le (routes : List RouteEntry)
    (dest next_hop hop_count now : Nat) (h : routes.length ≤ MAX_ROUTES) :
    (update_route routes dest next_hop hop_count now).length ≤ MAX_ROUTES := by
  unfold update_route
  by_cases hmem : routes.any (fun e => e.dest_id == dest) = true
  · rw [if_pos hmem, replaceRoute_length]
    exact h
  · rw [if_neg hmem]
    by_cases hlen : routes.length < MAX_ROUTES
    · rw [if_pos hlen]
      simp only [List.length_append, List.length_cons, List.length_nil]
      omega
    · rw [if_neg hlen]
      exact h

theorem replaceRoute_spec (dest next_hop hop_count now : Nat) :
    ∀ (t1 : List RouteEntry) (e : RouteEntry) (t2 : List RouteEntry),
      e.dest_id = dest → (∀ x ∈ t1, x.dest_id ≠ dest) →
      replaceRoute dest next_hop hop_count now (t1 ++ e :: t2) =
        t1 ++ (if hop_count < e.hop_count then
                 RouteEntry.mk dest next_hop hop_count now else e) :: t2 := by
  intro t1
  induction t1 with
  | nil =>
    intro e t2 he _
    unfold replaceRoute
    simp [he]
  | cons x rest ih =>
    intro e t2 he hnone
    have hx : x.dest_id ≠ dest := hnone x (List.mem_cons_self x rest)
    have hrest : ∀ y ∈ rest, y.dest_id ≠ dest := fun y hy =>
      hnone y (List.mem_cons_of_mem x hy)
    simp only [List.cons_append]
    unfold replaceRoute
    simp [hx, ih e t2 he hrest]

end WSN

namespace WSN

/-- C2 counterexample: with no route for target 9 and no parent
(`parent_id = 0xFFFF`) — and in this file's `find_next_hop` there is no
child table at all — the spec's `resolve_next_hop` returns `Broadcast`, but
the code's `find_next_hop` returns the target id 9 itself, and the command
branch then unicasts to 9 instead of broadcasting. -/
theorem C2_counterexample :
    resolve_next_hop_spec [] [] none 9 = NextHop.broadcast ∧
    find_next_hop [] 0xFFFF 9 = 9 ∧
    forwardCommand [] 0xFFFF (mkCmdMsg 9 1) 9 =
      Wireless.unicast 9 (mkCmdMsg 9 1) ∧
    forwardCommand [] 0xFFFF (mkCmdMsg 9 1) 9 ≠
      Wireless.broadcast (mkCmdMsg 9 1) := by
  refine ⟨rfl, rfl, rfl, ?_⟩
  decide

/-- C2 amended: `find_next_hop` returns, in priority order, the route-table
next hop when a route for the target exists, else the parent when one is
set, else the target id itself (a direct unicast attempt — never a
broadcast marker); there is no direct-child check.  In particular a relay
with no route for the target and a valid parent forwards an inbound command
to the parent, not broadcast. -/
theorem C2_next_hop_priority (routes : List RouteEntry) (parent_id target_id : Nat)
    (msg : List Nat) :
    (∀ e, findRoute routes target_id = some e →
      find_next_hop routes parent_id target_id = e.next_hop) ∧
    (findRoute routes target_id = none → parent_id ≠ 0xFFFF →
      find_next_hop routes parent_id target_id = parent_id % 256) ∧
    (findRoute routes target_id = none → parent_id = 0xFFFF →
      find_next_hop routes parent_id target_id = target_id) ∧
    (findRoute routes target_id = none → parent_id ≠ 0xFFFF →
      parent_id % 256 ≠ 0xFF →
      forwardCommand routes parent_id msg target_id =
        Wireless.unicast (parent_id % 256) msg) := by
  refine ⟨?_, ?_, ?_, ?_⟩
  · intro e he
    unfold find_next_hop
    rw [he]
  · intro hnone hp
    unfold find_next_hop
    rw [hnone]
    simp [hp]
  · intro hnone hp
    unfold find_next_hop
    rw [hnone]
    simp [hp]
  · intro hnone hp hb
    unfold forwardCommand
    have hfn : find_next_hop routes parent_id target_id = parent_id % 256 := by
      unfold find_next_hop
      rw [hnone]
      simp [hp]
    rw [hfn, if_pos hb]
    unfold forward_message
    congr 1
    omega

/-- Witness for C2 amended: empty route table, parent 3, target 9 — the
command is unicast to the parent. -/
theorem C2_next_hop_priority_witness :
    find_next_hop [] 3 9 = 3 ∧
    forwardCommand [] 3 (mkCmdMsg 9 1) 9 = Wireless.unicast 3 (mkCmdMsg 9 1) := by
  have h := C2_next_hop_priority [] 3 9 (mkCmdMsg 9 1)
  exact ⟨h.2.1 rfl (by decide), h.2.2.2 rfl (by decide) (by decide)⟩

/-- C7: `update_route` inserts a fresh entry only when the destination is
absent and the table holds fewer than `MAX_ROUTES = 10` entries (appended at
the end, `last_updated = now`); when the destination is present, the first
matching entry is replaced — with `last_updated` refreshed — exactly when
the new hop count strictly improves, and the table is otherwise unchanged;
an insert against a full table is rejected leaving the table intact; and
any sequence of calls from the empty table keeps the size at most 10. -/
theorem C7_update_route_spec :
    (∀ calls : List (Nat × Nat × Nat × Nat),
      (apply_updates calls).length ≤ MAX_ROUTES) ∧
    (∀ (routes : List RouteEntry) (dest next_hop hop_count now : Nat),
      routes.any (fun e => e.dest_id == dest) = false →
      MAX_ROUTES ≤ routes.length →
      update_route routes dest next_hop hop_count now = routes) ∧
    (∀ (routes : List RouteEntry) (dest next_hop hop_count now : Nat),
      routes.any (fun e => e.dest_id == dest) = false →
      routes.length < MAX_ROUTES →
      update_route routes dest next_hop hop_count now =
        routes ++ [RouteEntry.mk dest next_hop hop_count now]) ∧
    (∀ (t1 : List RouteEntry) (e : RouteEntry) (t2 : List RouteEntry)
       (dest next_hop hop_count now : Nat),
      e.dest_id = dest → (∀ x ∈ t1, x.dest_id ≠ dest) →
      update_route (t1 ++ e :: t2) dest next_hop hop_count now =
        t1 ++ (if hop_count < e.hop_count then
                 RouteEntry.mk dest next_hop hop_count now else e) :: t2) := by
  refine ⟨?_, ?_, ?_, ?_⟩
  · intro calls
    have key : ∀ (cs : List (Nat × Nat × Nat × Nat)) (t : List RouteEntry),
        t.length ≤ MAX_ROUTES →
        (cs.foldl (fun t c => update_route t c.1 c.2.1 c.2.2.1 c.2.2.2) t).length ≤
          MAX_ROUTES := by
      intro cs
      induction cs with
      | nil => intro t ht; simpa using ht
      | cons c rest ih =>
        intro t ht
        exact ih _ (update_route_length_le t c.1 c.2.1 c.2.2.1 c.2.2.2 ht)
    exact key calls [] (by simp [MAX_ROUTES])
  · intro routes dest next_hop hop_count now habs hfull
    unfold update_route
    rw [habs]
    simp only [Bool.false_eq_true, if_false]
    rw [if_neg (by omega)]
  · intro routes dest next_hop hop_count now habs hlen
    unfold update_route
    rw [habs]
    simp only [Bool.false_eq_true, if_false]
    rw [if_pos hlen]
  · intro t1 e t2 dest next_hop hop_count now he hnone
    unfold update_route
    have hany : (t1 ++ e :: t2).any (fun x => x.dest_id == dest) = true := by
      simp only [List.any_eq_true]
      exact ⟨e, by simp, by simp [he]⟩
    rw [hany]
    simp only [if_true]
    exact replaceRoute_spec dest next_hop hop_count now t1 e t2 he hnone

/-- Witness for C7: a full 10-entry table rejects a new destination 42
unchanged, and an in-table destination 2 with a better hop count is
replaced in place. -/
theorem C7_update_route_spec_witness :
    update_route [⟨0, 0, 1, 0⟩, ⟨1, 1, 1, 0⟩, ⟨2, 2, 5, 0⟩, ⟨3, 3, 1, 0⟩,
        ⟨4, 4, 1, 0⟩, ⟨5, 5, 1, 0⟩, ⟨6, 6, 1, 0⟩, ⟨7, 7, 1, 0⟩,
        ⟨8, 8, 1, 0⟩, ⟨9, 9, 1, 0⟩] 42 7 1 99 =
      [⟨0, 0, 1, 0⟩, ⟨1, 1, 1, 0⟩, ⟨2, 2, 5, 0⟩, ⟨3, 3, 1, 0⟩,
       ⟨4, 4, 1, 0⟩, ⟨5, 5, 1, 0⟩, ⟨6, 6, 1, 0⟩, ⟨7, 7, 1, 0⟩,
       ⟨8, 8, 1, 0⟩, ⟨9, 9, 1, 0⟩] ∧
    update_route [⟨0, 0, 1, 0⟩, ⟨1, 1, 1, 0⟩, ⟨2, 2, 5, 0⟩] 2 8 3 99 =
      [⟨0, 0, 1, 0⟩, ⟨1, 1, 1, 0⟩, ⟨2, 8, 3, 99⟩] := by
  constructor
  · exact C7_update_route_spec.2.1 _ 42 7 1 99 (by decide) (by decide)
  · have h := C7_update_route_spec.2.2.2 [⟨0, 0, 1, 0⟩, ⟨1, 1, 1, 0⟩]
      ⟨2, 2, 5, 0⟩ [] 2 8 3 99 rfl (by decide)
    simpa using h

/-- C10: every command emitted by `send_command` is transmitted twice —
first unicast to the next hop resolved by `find_next_hop`, then
unconditionally once more as a broadcast of the same 4-byte frame, even
when a route for the target exists. -/
theorem C10_send_command_double (routes : List RouteEntry)
    (parent_id sensor_id command : Nat) :
    (send_command routes parent_id sensor_id command).length = 2 ∧
    send_command routes parent_id sensor_id command =
      [Wireless.unicast (find_next_hop routes parent_id sensor_id)
         (mkCmdMsg sensor_id command),
       Wireless.broadcast (mkCmdMsg sensor_id command)] ∧
    (∀ e, findRoute routes sensor_id = some e →
      send_command routes parent_id sensor_id command =
        [Wireless.unicast e.next_hop (mkCmdMsg sensor_id command),
         Wireless.broadcast (mkCmdMsg sensor_id command)]) := by
  refine ⟨rfl, rfl, ?_⟩
  intro e he
  unfold send_command find_next_hop
  rw [he]

/-- Witness for C10: with a route `9 → via 7` present, the command to 9 is
still sent twice — unicast to 7 and then broadcast. -/
theorem C10_send_command_double_witness :
    send_command [⟨9, 7, 1, 0⟩] 3 9 1 =
      [Wireless.unicast 7 (mkCmdMsg 9 1), Wireless.broadcast (mkCmdMsg 9 1)] := by
  exact (C10_send_command_double [⟨9, 7, 1, 0⟩] 3 9 1).2.2 ⟨9, 7, 1, 0⟩ rfl

end WSN

namespace WSN

/-! ## Trend detection

From `src/computation-node.c`, `calculate_slope` (lines 372–408).  The C
function accumulates `sum_x`, `sum_y`, `sum_xy`, `sum_xx` over the readings
with the reading index as `x`, and divides; its `float` arithmetic is
embedded over `ℚ` (exact for the integer-valued inputs considered here). -/

/-- The accumulation loop of `calculate_slope`:
`(sum_x, sum_y, sum_xy, sum_xx)` over `x_i = i`, `y_i = readings[i]`. -/
def slopeSums (readings : List ℚ) : ℚ × ℚ × ℚ × ℚ :=
  readings.enum.foldl
    (fun acc p =>
      (acc.1 + (p.1 : ℚ), acc.2.1 + p.2, acc.2.2.1 + (p.1 : ℚ) * p.2,
       acc.2.2.2 + (p.1 : ℚ) * (p.1 : ℚ)))
    (0, 0, 0, 0)

/-- The denominator `sum_xx - n * x_mean * x_mean` of `calculate_slope`. -/
def slopeDenominator (readings : List ℚ) : ℚ :=
  let n : ℚ := (readings.length : ℚ)
  (slopeSums readings).2.2.2 - n * ((slopeSums readings).1 / n) * ((slopeSums readings).1 / n)

/-- `calculate_slope`: 0 for fewer than 2 readings; otherwise the regression
slope `(sum_xy - n*x_mean*y_mean) / (sum_xx - n*x_mean*x_mean)`, with the
defensive near-zero-denominator branch (`fabs(denominator) < 0.0001`)
returning 0. -/
def calculate_slope (readings : List ℚ) : ℚ :=
  if readings.length < 2 then 0
  else
    let n : ℚ := (readings.length : ℚ)
    let s := slopeSums readings
    let x_mean := s.1 / n
    let y_mean := s.2.1 / n
    let denominator := s.2.2.2 - n * x_mean * x_mean
    if |denominator| < 1 / 10000 then 0
    else (s.2.2.1 - n * x_mean * y_mean) / denominator

/-- The ordinary-least-squares slope formula as the spec states it:
`(nΣxy − ΣxΣy) / (nΣxx − (Σx)²)`, with `x_i = i`. -/
def olsSlope (readings : List ℚ) : ℚ :=
  let n : ℚ := (readings.length : ℚ)
  let s := slopeSums readings
  (n * s.2.2.1 - s.1 * s.2.1) / (n * s.2.2.2 - s.1 * s.1)

/-- C4: `calculate_slope` is the ordinary-least-squares regression slope of
the readings against the reading index (`x_i = i`): it returns exactly 10
on `[10,20,30,40]`, exactly 0 on the constant `[50,50,50]`, 0 for fewer
than 2 readings, and agrees with the spec formula
`(nΣxy − ΣxΣy) / (nΣxx − (Σx)²)` whenever the denominator clears the
defensive epsilon. -/
theorem C4_calculate_slope_ols :
    calculate_slope [10, 20, 30, 40] = 10 ∧
    calculate_slope [50, 50, 50] = 0 ∧
    (∀ l : List ℚ, l.length < 2 → calculate_slope l = 0) ∧
    (∀ l : List ℚ, 2 ≤ l.length → 1 / 10000 ≤ |slopeDenominator l| →
      calculate_slope l = olsSlope l) := by
  refine ⟨?_, ?_, ?_, ?_⟩
  · norm_num [calculate_slope, slopeSums, List.enum, List.enumFrom]
  · norm_num [calculate_slope, slopeSums, List.enum, List.enumFrom]
  · intro l hl
    unfold calculate_slope
    rw [if_pos hl]
  · intro l h2 hd
    have hn0 : (0:ℚ) < (l.length : ℚ) := by
      have : 0 < l.length := by omega
      exact_mod_cast this
    have hn : (l.length : ℚ) ≠ 0 := ne_of_gt hn0
    have hdne : slopeDenominator l ≠ 0 := by
      intro h
      rw [h, abs_zero] at hd
      norm_num at hd
    have hd2 : ¬(|(slopeSums l).2.2.2 -
        (l.length : ℚ) * ((slopeSums l).1 / (l.length : ℚ)) *
          ((slopeSums l).1 / (l.length : ℚ))| < 1 / 10000) := by
      unfold slopeDenominator at hd
      exact not_lt.mpr hd
    have hdne2 : (slopeSums l).2.2.2 -
        (l.length : ℚ) * ((slopeSums l).1 / (l.length : ℚ)) *
          ((slopeSums l).1 / (l.length : ℚ)) ≠ 0 := by
      unfold slopeDenominator at hdne
      exact hdne
    have hE : (l.length : ℚ) * (slopeSums l).2.2.2 -
        (slopeSums l).1 * (slopeSums l).1 ≠ 0 := by
      have hmul : (l.length : ℚ) * ((slopeSums l).2.2.2 -
          (l.length : ℚ) * ((slopeSums l).1 / (l.length : ℚ)) *
            ((slopeSums l).1 / (l.length : ℚ))) =
          (l.length : ℚ) * (slopeSums l).2.2.2 -
            (slopeSums l).1 * (slopeSums l).1 := by
        field_simp
        ring
      rw [← hmul]
      exact mul_ne_zero hn hdne2
    unfold calculate_slope olsSlope
    rw [if_neg (by omega : ¬l.length < 2)]
    simp only
    rw [if_neg hd2]
    rw [div_eq_div_iff hdne2 hE]
    field_simp
    ring

/-- Witness for C4: a single reading gives slope 0; the two-point series
`[520, 900]` clears the epsilon and realizes the OLS formula. -/
theorem C4_calculate_slope_ols_witness :
    calculate_slope [(5 : ℚ)] = 0 ∧
    calculate_slope [520, 900] = olsSlope [520, 900] := by
  constructor
  · exact C4_calculate_slope_ols.2.2.1 [(5 : ℚ)] (by norm_num)
  · refine C4_calculate_slope_ols.2.2.2 [520, 900] (by norm_num) ?_
    norm_num [slopeDenominator, slopeSums, List.enum, List.enumFrom]
    rw [abs_of_nonneg (by norm_num : (0:ℚ) ≤ 1 / 2)]
    norm_num

end WSN

namespace WSN

/-! ## Sensor aggregation table, anomaly decision and valve sweep

From `src/computation-node.c`: `sensor_data_t` (lines 31–39),
`find_sensor` (lines 317–325), `add_sensor` (lines 327–350),
`add_reading` (lines 352–370), the Data branch of `receive_callback`
(case 3, lines 250–284) and `valve_timer_process` (lines 92–110). -/

/-- One sensor-table slot (`sensor_data_t`); `count` is `readings.length`. -/
structure SensorData where
  sensor_id : Nat
  readings : List Nat
  last_update : Nat
  active : Bool
  valve_open : Bool
  valve_open_time : Nat
  deriving Repr, DecidableEq

/-- Capacity of the sensor table (`MAX_SENSOR_NODES`). -/
def MAX_SENSOR_NODES : Nat := 5

/-- Ring-buffer capacity (`MAX_SENSOR_READINGS`). -/
def MAX_SENSOR_READINGS : Nat := 30

/-- `SLOPE_THRESHOLD` (3.0 in `computation-node.c`). -/
def SLOPE_THRESHOLD : ℚ := 3

/-- `VALVE_DURATION` (60 seconds in `computation-node.c`). -/
def VALVE_DURATION : Nat := 60

/-- A freshly initialised slot as `add_sensor` writes it. -/
def mkFreshSensor (sensor_id now : Nat) : SensorData :=
  ⟨sensor_id, [], now, true, false, 0⟩

instance : Inhabited SensorData := ⟨mkFreshSensor 0 0⟩

/-- `find_sensor(sensor_id)`: index of the first active slot for the id. -/
def find_sensor (sensors : List SensorData) (sensor_id : Nat) : Option Nat :=
  sensors.findIdx? (fun r => r.sensor_id == sensor_id && r.active)

/-- `add_sensor(sensor_id)`: recycle the first inactive slot, else append a
fresh slot while fewer than `MAX_SENSOR_NODES` are in use, else fail. -/
def add_sensor (sensors : List SensorData) (sensor_id now : Nat) :
    List SensorData × Option Nat :=
  match sensors.findIdx? (fun r => !r.active) with
  | some i => (sensors.set i (mkFreshSensor sensor_id now), some i)
  | none =>
    if sensors.length < MAX_SENSOR_NODES then
      (sensors ++ [mkFreshSensor sensor_id now], some sensors.length)
    else
      (sensors, none)

/-- `add_reading(index, value)`: at ring-buffer capacity the oldest reading
(index 0) is shifted out; the new value is appended and `last_update`
refreshed. -/
def add_reading (rec : SensorData) (value now : Nat) : SensorData :=
  let rs := if rec.readings.length = MAX_SENSOR_READINGS
            then rec.readings.tail else rec.readings
  { rec with readings := rs ++ [value], last_update := now }

/-- The slope of a record's readings as `calculate_slope` sees them. -/
def recordSlope (rec : SensorData) : ℚ :=
  calculate_slope (rec.readings.map (fun v => (v : ℚ)))

/-- Lines 266–278 of `receive_callback`: with at least 2 readings compute
the slope; when `fabs(slope) > SLOPE_THRESHOLD` and the valve is closed,
send the Open command (type 1) to the sensor, mark `valve_open` and stamp
`valve_open_time = clock_seconds()`. -/
def processReadingDecision (routes : List RouteEntry) (parent_id : Nat)
    (rec : SensorData) (now : Nat) : SensorData × List Wireless :=
  if 2 ≤ rec.readings.length then
    if SLOPE_THRESHOLD < |recordSlope rec| ∧ rec.valve_open = false then
      ({ rec with valve_open := true, valve_open_time := now },
       send_command routes parent_id rec.sensor_id 1)
    else
      (rec, [])
  else
    (rec, [])

/-- One slot of the sweep body of `valve_timer_process`: when the valve is
open and `now - valve_open_time >= VALVE_DURATION` (`uint32_t`
subtraction), send the Close command (0) and clear `valve_open`. -/
def sweepOne (routes : List RouteEntry) (parent_id now : Nat) (r : SensorData) :
    SensorData × List Wireless :=
  if r.valve_open = true ∧ VALVE_DURATION ≤ u32sub now r.valve_open_time then
    ({ r with valve_open := false }, send_command routes parent_id r.sensor_id 0)
  else
    (r, [])

/-- The full periodic sweep of `valve_timer_process` over every slot
`i < sensor_count`; it consumes no inbound message — it runs off the timer
alone. -/
def sweep_valves (routes : List RouteEntry) (parent_id now : Nat)
    (sensors : List SensorData) : List SensorData × List Wireless :=
  (sensors.map (fun r => (sweepOne routes parent_id now r).1),
   (sensors.map (fun r => (sweepOne routes parent_id now r).2)).flatten)

/-- The state the Data branch of `receive_callback` touches. -/
structure CNState where
  parent_id : Nat
  sensors : List SensorData
  routes : List RouteEntry
  deriving Repr, DecidableEq

/-- Find-or-create followed by `add_reading` and the anomaly decision, the
shared tail of the in-capacity path of the Data branch. -/
def dataProcessAt (st : CNState) (routes1 : List RouteEntry)
    (sensors1 : List SensorData) (i value now : Nat) : CNState × List Wireless :=
  let rec1 := add_reading (sensors1.getD i default) value now
  let step := processReadingDecision routes1 st.parent_id rec1 now
  ({ st with sensors := sensors1.set i step.1, routes := routes1 }, step.2)

/-- The Data branch of `receive_callback` (case 3, lines 250–284): for a
frame of at least 6 bytes, refresh the route to the originating sensor,
then — when the source has a record or the table has spare capacity —
find-or-create the record, append the reading and run the anomaly decision;
otherwise forward the frame unmodified to the parent. -/
def handleData (st : CNState) (msg : List Nat) (srcAddr now : Nat) :
    CNState × List Wireless :=
  if 6 ≤ msg.length then
    let source_id := msg.getD 1 0
    let value := 256 * msg.getD 4 0 + msg.getD 5 0
    let routes1 := update_route st.routes source_id srcAddr 1 now
    if st.sensors.length < MAX_SENSOR_NODES ∨ (find_sensor st.sensors source_id).isSome then
      match find_sensor st.sensors source_id with
      | some i => dataProcessAt st routes1 st.sensors i value now
      | none =>
        match add_sensor st.sensors source_id now with
        | (sensors1, some i) => dataProcessAt st routes1 sensors1 i value now
        | (sensors1, none) => ({ st with sensors := sensors1, routes := routes1 }, [])
    else
      ({ st with routes := routes1 }, [forward_message msg st.parent_id])
  else
    (st, [])

end WSN

namespace WSN

/-- C5: on a Data message whose record holds at least 2 readings, the node
emits the Open command to the source sensor, sets the record's
`valve_open` and stamps `valve_open_time = now` exactly when
`|slope| > SLOPE_THRESHOLD` and the valve was previously closed; otherwise
nothing is emitted and the record is unchanged. -/
theorem C5_open_valve_decision (routes : List RouteEntry) (parent_id : Nat)
    (rec : SensorData) (now : Nat) (h2 : 2 ≤ rec.readings.length) :
    (SLOPE_THRESHOLD < |recordSlope rec| ∧ rec.valve_open = false →
      processReadingDecision routes parent_id rec now =
        ({ rec with valve_open := true, valve_open_time := now },
         send_command routes parent_id rec.sensor_id 1)) ∧
    (¬(SLOPE_THRESHOLD < |recordSlope rec| ∧ rec.valve_open = false) →
      processReadingDecision routes parent_id rec now = (rec, [])) := by
  unfold processReadingDecision
  rw [if_pos h2]
  constructor
  · intro hc
    rw [if_pos hc]
  · intro hc
    rw [if_neg hc]

/-- Witness for C5: readings `[520, 900]` (slope 380 > 3) with the valve
closed open it and send the command; the same record with the valve already
open is left alone. -/
theorem C5_open_valve_decision_witness :
    processReadingDecision [] 3 ⟨5, [520, 900], 0, true, false, 0⟩ 7 =
      (⟨5, [520, 900], 0, true, true, 7⟩,
       [Wireless.unicast 3 (mkCmdMsg 5 1), Wireless.broadcast (mkCmdMsg 5 1)]) ∧
    processReadingDecision [] 3 ⟨5, [520, 900], 0, true, true, 9⟩ 7 =
      (⟨5, [520, 900], 0, true, true, 9⟩, []) := by
  have hslope : recordSlope ⟨5, [520, 900], 0, true, false, 0⟩ = 380 := by
    norm_num [recordSlope, calculate_slope, slopeSums, List.enum, List.enumFrom]
    rw [abs_of_nonneg (by norm_num : (0:ℚ) ≤ 1 / 2)]
    norm_num
  constructor
  · have h := (C5_open_valve_decision [] 3 ⟨5, [520, 900], 0, true, false, 0⟩ 7
      (by norm_num)).1 (by rw [hslope]; norm_num [SLOPE_THRESHOLD])
    rw [h]
    rfl
  · have h := (C5_open_valve_decision [] 3 ⟨5, [520, 900], 0, true, true, 9⟩ 7
      (by norm_num)).2 (by simp)
    rw [h]

/-- C6: every run of the valve sweep closes — emitting both transmissions
of `send_command(sensor_id, 0)` — and clears `valve_open` for every active
record whose valve is open and whose opening lies at least `VALVE_DURATION`
seconds in the past; the sweep consumes no Data message, so this happens
even when none has arrived since the valve opened. -/
theorem C6_valve_sweep_closes (routes : List RouteEntry) (parent_id now : Nat)
    (sensors : List SensorData) (i : Nat) (hi : i < sensors.length)
    (_hact : (sensors.get ⟨i, hi⟩).active = true)
    (hopen : (sensors.get ⟨i, hi⟩).valve_open = true)
    (hnow : now < 2 ^ 32)
    (hle : (sensors.get ⟨i, hi⟩).valve_open_time ≤ now)
    (hdur : VALVE_DURATION ≤ now - (sensors.get ⟨i, hi⟩).valve_open_time) :
    ∃ hj : i < (sweep_valves routes parent_id now sensors).1.length,
      ((sweep_valves routes parent_id now sensors).1.get ⟨i, hj⟩).valve_open = false ∧
      Wireless.unicast (find_next_hop routes parent_id (sensors.get ⟨i, hi⟩).sensor_id)
          (mkCmdMsg (sensors.get ⟨i, hi⟩).sensor_id 0) ∈
        (sweep_valves routes parent_id now sensors).2 ∧
      Wireless.broadcast (mkCmdMsg (sensors.get ⟨i, hi⟩).sensor_id 0) ∈
        (sweep_valves routes parent_id now sensors).2 := by
  have hcond : (sensors.get ⟨i, hi⟩).valve_open = true ∧
      VALVE_DURATION ≤ u32sub now (sensors.get ⟨i, hi⟩).valve_open_time := by
    refine ⟨hopen, ?_⟩
    rw [u32sub_of_le _ _ hle hnow]
    exact hdur
  have hfire : sweepOne routes parent_id now (sensors.get ⟨i, hi⟩) =
      ({ sensors.get ⟨i, hi⟩ with valve_open := false },
       send_command routes parent_id (sensors.get ⟨i, hi⟩).sensor_id 0) := by
    unfold sweepOne
    rw [if_pos hcond]
  have hlen : i < (sweep_valves routes parent_id now sensors).1.length := by
    simpa [sweep_valves] using hi
  have hmemsub : (sweepOne routes parent_id now (sensors.get ⟨i, hi⟩)).2 ∈
      sensors.map (fun r => (sweepOne routes parent_id now r).2) :=
    List.mem_map_of_mem _ (List.get_mem sensors i hi)
  refine ⟨hlen, ?_, ?_, ?_⟩
  · have hget : (sweep_valves routes parent_id now sensors).1.get ⟨i, hlen⟩ =
        (sweepOne routes parent_id now (sensors.get ⟨i, hi⟩)).1 := by
      simp [sweep_valves, List.get_eq_getElem, List.getElem_map]
    rw [hget, hfire]
  · refine List.mem_flatten.mpr ⟨_, hmemsub, ?_⟩
    rw [hfire]
    simp [send_command]
  · refine List.mem_flatten.mpr ⟨_, hmemsub, ?_⟩
    rw [hfire]
    simp [send_command]

/-- Witness for C6: one record, valve opened at time 10, swept at time 70 =
10 + `VALVE_DURATION`: the valve is cleared and Close (command 0) goes out
unicast and broadcast. -/
theorem C6_valve_sweep_closes_witness :
    ∃ hj : 0 < (sweep_valves [] 3 70 [⟨5, [520, 900], 0, true, true, 10⟩]).1.length,
      ((sweep_valves [] 3 70 [⟨5, [520, 900], 0, true, true, 10⟩]).1.get
        ⟨0, hj⟩).valve_open = false ∧
      Wireless.unicast (find_next_hop [] 3 5) (mkCmdMsg 5 0) ∈
        (sweep_valves [] 3 70 [⟨5, [520, 900], 0, true, true, 10⟩]).2 ∧
      Wireless.broadcast (mkCmdMsg 5 0) ∈
        (sweep_valves [] 3 70 [⟨5, [520, 900], 0, true, true, 10⟩]).2 := by
  exact C6_valve_sweep_closes [] 3 70 [⟨5, [520, 900], 0, true, true, 10⟩] 0
    (by norm_num) rfl rfl (by norm_num) (by norm_num) (by norm_num [VALVE_DURATION])

/-- C8: a Data message from a source with no active record while the sensor
table is at capacity creates no record and buffers nothing — the sensor
table is untouched — and the frame is forwarded unmodified toward the
parent, with nothing else emitted. -/
theorem C8_at_capacity_forwards (st : CNState) (msg : List Nat) (srcAddr now : Nat)
    (hlen : 6 ≤ msg.length)
    (hcap : st.sensors.length = MAX_SENSOR_NODES)
    (hnone : find_sensor st.sensors (msg.getD 1 0) = none) :
    (handleData st msg srcAddr now).1.sensors = st.sensors ∧
    (handleData st msg srcAddr now).1.parent_id = st.parent_id ∧
    (handleData st msg srcAddr now).2 =
      [Wireless.unicast (st.parent_id % 256) msg] := by
  have hguard : ¬(st.sensors.length < MAX_SENSOR_NODES ∨
      (find_sensor st.sensors (msg.getD 1 0)).isSome) := by
    rw [hnone, hcap]
    simp
  unfold handleData
  rw [if_pos hlen, if_neg hguard]
  exact ⟨rfl, rfl, rfl⟩

/-- Witness for C8: a full five-slot table and a Data frame from unseen
sensor 77 — the table survives unchanged and the frame goes to parent 3. -/
theorem C8_at_capacity_forwards_witness :
    (handleData
        ⟨3, [mkFreshSensor 1 0, mkFreshSensor 2 0, mkFreshSensor 4 0,
             mkFreshSensor 5 0, mkFreshSensor 6 0], []⟩
        [3, 77, 3, 0, 2, 8] 77 50).1.sensors =
      [mkFreshSensor 1 0, mkFreshSensor 2 0, mkFreshSensor 4 0,
       mkFreshSensor 5 0, mkFreshSensor 6 0] ∧
    (handleData
        ⟨3, [mkFreshSensor 1 0, mkFreshSensor 2 0, mkFreshSensor 4 0,
             mkFreshSensor 5 0, mkFreshSensor 6 0], []⟩
        [3, 77, 3, 0, 2, 8] 77 50).2 =
      [Wireless.unicast 3 [3, 77, 3, 0, 2, 8]] := by
  have h := C8_at_capacity_forwards
    ⟨3, [mkFreshSensor 1 0, mkFreshSensor 2 0, mkFreshSensor 4 0,
         mkFreshSensor 5 0, mkFreshSensor 6 0], []⟩
    [3, 77, 3, 0, 2, 8] 77 50 (by norm_num) (by rfl) (by rfl)
  exact ⟨h.1, h.2.2⟩

end WSN

namespace WSN

/-! ## Inbound length validation

A read-trace model of `receive_callback` in `src/computation-node.c`
(lines 208–315): `fieldReads msg` lists the byte offsets of `msg` the
handler dereferences after the `len == 0` and source-is-self guards.
Tracing the C: `msg[0]` is always read (line 218); the Discovery branch
reads `msg[1..3]` only under `len >= 4` (lines 226–229); the Data branch
reads `msg[1]`, `msg[4]`, `msg[5]` only under `len >= 6` (lines 251–253);
the Command branch reads `msg[1]` and `msg[2]` with no length test at all
(lines 287–288); unknown types read nothing further. -/

/-- The byte offsets of the inbound frame that `receive_callback`
dereferences as typed fields, per message type and length. -/
def fieldReads (msg : List Nat) : List Nat :=
  match msg.head? with
  | none => []
  | some t =>
    if t = 1 then (if 4 ≤ msg.length then [0, 1, 2, 3] else [0])
    else if t = 3 then (if 6 ≤ msg.length then [0, 1, 4, 5] else [0])
    else if t = 4 then [0, 1, 2]
    else [0]

/-- The minimum frame size per declared type, as the senders build the
frames: Discovery 4 bytes, Data 6 bytes, Command 4 bytes. -/
def minMsgSize (t : Nat) : Nat :=
  if t = 1 then 4 else if t = 3 then 6 else if t = 4 then 4 else 1

/-- C9 counterexample: the 1-byte frame `[4]` declares type Command
(minimum size 4), yet the handler dereferences offsets 1 and 2 — beyond
the end of the buffer — instead of dropping the frame, refuting the claim
that the minimum length for the declared type is validated before any
type-specific field access. -/
theorem C9_counterexample :
    fieldReads [4] = [0, 1, 2] ∧
    ([4] : List Nat).length < minMsgSize 4 ∧
    ¬(∀ i ∈ fieldReads [4], i < ([4] : List Nat).length) := by
  refine ⟨rfl, by norm_num [minMsgSize], by decide⟩

/-- C9 amended: zero-length input is rejected before any field access, and
the Discovery and Data branches check the type's minimum length before
touching their fields (every offset they dereference is inside the
buffer); but the Command branch dereferences offsets 1 and 2
unconditionally, so Command frames shorter than 3 bytes are read out of
bounds rather than dropped. -/
theorem C9_length_validation (msg : List Nat) :
    (msg = [] → fieldReads msg = []) ∧
    (msg.head? = some 1 ∨ msg.head? = some 3 →
      ∀ i ∈ fieldReads msg, i < msg.length) ∧
    (msg.head? = some 4 → fieldReads msg = [0, 1, 2]) := by
  refine ⟨?_, ?_, ?_⟩
  · intro h
    subst h
    rfl
  · intro ht i hi
    have hne : msg ≠ [] := by
      intro h
      subst h
      simp at ht
    rcases ht with h1 | h3
    · unfold fieldReads at hi
      rw [h1] at hi
      simp only [if_pos rfl] at hi
      by_cases h4 : 4 ≤ msg.length
      · rw [if_pos h4] at hi
        simp at hi
        omega
      · rw [if_neg h4] at hi
        simp at hi
        have : 0 < msg.length := List.length_pos.mpr hne
        omega
    · unfold fieldReads at hi
      rw [h3] at hi
      simp only [if_neg (by norm_num : ¬(3 : Nat) = 1), if_pos rfl] at hi
      by_cases h6 : 6 ≤ msg.length
      · rw [if_pos h6] at hi
        simp at hi
        omega
      · rw [if_neg h6] at hi
        simp at hi
        have : 0 < msg.length := List.length_pos.mpr hne
        omega
  · intro ht
    unfold fieldReads
    rw [ht]
    norm_num

/-- Witness for C9 amended: a 2-byte Discovery fragment `[1, 9]` is dropped
having read only byte 0, and the full frame `[1, 9, 0, 200]` reads exactly
its four header bytes, all in bounds. -/
theorem C9_length_validation_witness :
    (∀ i ∈ fieldReads [1, 9], i < ([1, 9] : List Nat).length) ∧
    (∀ i ∈ fieldReads [1, 9, 0, 200], i < ([1, 9, 0, 200] : List Nat).length) := by
  exact ⟨(C9_length_validation [1, 9]).2.1 (Or.inl rfl),
         (C9_length_validation [1, 9, 0, 200]).2.1 (Or.inl rfl)⟩

end WSN
